import Mathlib

/-!
# Verification of the opendance generation engine

Shallow embedding of the opendance clip-chain store, the polling
controller, the generation orchestration and the stateless simulation
backend, together with proofs of the testable properties stated in the
project specification.

Sources embedded:
* `app/store/useClipStore.ts` (and its revised form, which differs only
  in `getLastClip` and in `addClip` dead code) — clip chain store.
* `app/services/api.ts` — `pollUntilDone`, the polling controller.
* `app/app/index.tsx` — `startGeneration`, the orchestration and its
  error handling.
* `worker/src/index.ts` — `handleGenerateDummy` / `handleStatusDummy`,
  the stateless simulation backend.
-/

/-! ## Clip chain store (`useClipStore.ts`) -/

/-- `ClipStatus` from `useClipStore.ts`:
`'pending' | 'generating' | 'done' | 'failed'`. -/
inductive ClipStatus where
  | pending
  | generating
  | done
  | failed
deriving DecidableEq

/-- The `Clip` record from `useClipStore.ts`.  `videoUri`, `lastFrameUri`
and `klingTaskId` are `T | null` in the source, embedded as `Option`. -/
structure Clip where
  id : String
  imageUri : String
  prompt : String
  videoUri : Option String
  lastFrameUri : Option String
  status : ClipStatus
  klingTaskId : Option String
deriving DecidableEq

/-- `Partial<Clip>`: every field optionally present.  A field that is
absent (`none` here) is left untouched by the object-spread merge. -/
structure ClipUpdates where
  id : Option String := none
  imageUri : Option String := none
  prompt : Option String := none
  videoUri : Option (Option String) := none
  lastFrameUri : Option (Option String) := none
  status : Option ClipStatus := none
  klingTaskId : Option (Option String) := none
deriving DecidableEq

/-- The object-spread merge `\x7b ...c, ...updates \x7d`: fields present in
`updates` override the corresponding fields of `c`. -/
def applyUpdates (c : Clip) (u : ClipUpdates) : Clip where
  id := u.id.getD c.id
  imageUri := u.imageUri.getD c.imageUri
  prompt := u.prompt.getD c.prompt
  videoUri := u.videoUri.getD c.videoUri
  lastFrameUri := u.lastFrameUri.getD c.lastFrameUri
  status := u.status.getD c.status
  klingTaskId := u.klingTaskId.getD c.klingTaskId

/-- `addClip` from `useClipStore.ts`: appends a fresh record with status
`'generating'` and empty output references.  The source generates the id
from the clock and a random suffix; the id is a parameter here.  (The
original store also computes `getContextPrompt(prompt)` into an unused
local before appending; that call has no effect on the state and is not
represented.) -/
def addClip (clips : List Clip) (id imageUri prompt : String) : List Clip :=
  clips ++ [{ id := id, imageUri := imageUri, prompt := prompt,
              videoUri := none, lastFrameUri := none,
              status := ClipStatus.generating, klingTaskId := none }]

/-- `updateClip` from `useClipStore.ts`:
`clips.map (c => c.id === id ? \x7b ...c, ...updates \x7d : c)`. -/
def updateClip (clips : List Clip) (id : String) (u : ClipUpdates) : List Clip :=
  clips.map fun c => if c.id = id then applyUpdates c u else c

/-- `getLastClip` as written in `app/store/useClipStore.ts`:
returns the last clip by array position, regardless of status. -/
def StoreApp.getLastClip (clips : List Clip) : Option Clip :=
  if clips.length = 0 then none else clips[clips.length - 1]?

/-- `getLastClip` as written in the revised store (`Issue 5 fix`):
filters to `status === 'done'` first, then returns the last done clip. -/
def StoreFixed.getLastClip (clips : List Clip) : Option Clip :=
  let doneClips := clips.filter fun c => decide (c.status = ClipStatus.done)
  if doneClips.length = 0 then none else doneClips[doneClips.length - 1]?

/-- JavaScript `Array.prototype.join(sep)` on a list of strings. -/
def jsJoin (sep : String) : List String → String
  | [] => ""
  | x :: xs => xs.foldl (fun acc y => acc ++ sep ++ y) x

/-- `getContextPrompt` from `useClipStore.ts` (identical in both store
versions).  `doneClips.slice(-2)` is `drop (length - 2)`; the source
branches on `recent.length === 1`, rendered here as a match on the
(at most two element) `recent` list. -/
def getContextPrompt (clips : List Clip) (userPrompt : String) : String :=
  let doneClips := clips.filter fun c => decide (c.status = ClipStatus.done)
  if doneClips.length = 0 then
    userPrompt
  else
    let recent := doneClips.drop (doneClips.length - 2)
    match recent with
    | [a] =>
        jsJoin "\n"
          ["Previous scene: \"" ++ a.prompt ++ "\"",
           "Current scene (continuing from the last frame): \"" ++ userPrompt ++ "\"",
           "Maintain smooth visual and motion continuity."]
    | a :: b :: _ =>
        jsJoin "\n"
          ["Two scenes ago: \"" ++ a.prompt ++ "\"",
           "Previous scene: \"" ++ b.prompt ++ "\"",
           "Current scene (continuing from the last frame): \"" ++ userPrompt ++ "\"",
           "Maintain smooth visual and motion continuity."]
    | [] => userPrompt

/-! ## Polling controller (`pollUntilDone` in `app/services/api.ts`)

Time is modelled by `ℚ` (milliseconds since entry into the loop; the
source's `startTime` is 0 here).  `1.3` is the exact rational `13/10`.
The transport is a function from the index of the status check to its
result; the cancellation signal is the time at which `abort()` fires,
if ever.  A network call takes no model time; time advances only during
the interruptible sleep. -/

/-- Rational multiplication in a form the kernel evaluates on literals
(the ambient `*` on `ℚ` does not reduce definitionally); proved equal to
`*` in `qmul_eq`. -/
def qmul (a b : ℚ) : ℚ := Rat.divInt (a.num * b.num) ((a.den : ℤ) * b.den)

/-- Rational addition in kernel-evaluable form; equals `+` by `qadd_eq`. -/
def qadd (a b : ℚ) : ℚ :=
  Rat.divInt (a.num * (b.den : ℤ) + b.num * (a.den : ℤ)) ((a.den : ℤ) * b.den)

/-- Rational minimum in kernel-evaluable form; equals `min` by `qmin_eq`. -/
def qmin (a b : ℚ) : ℚ := if a ≤ b then a else b

/-- The backoff multiplier `1.3`, as the exact rational `13/10`. -/
def backoffFactor : ℚ := Rat.divInt 13 10

/-- The JSON result of `checkStatus`: `\x7b status: string; videoUrl?: string \x7d`. -/
structure StatusResult where
  status : String
  videoUrl : Option String
deriving DecidableEq

/-- JavaScript truthiness of the optional `videoUrl` string:
`undefined` and the empty string are falsy. -/
def truthyStr : Option String → Bool
  | none => false
  | some s => !(s == "")

/-- The environment of one `pollUntilDone` run: the response to the
`n`-th `checkStatus` call, and the time at which the `AbortSignal`
fires (`none` = never). -/
structure PollWorld where
  statusOf : ℕ → StatusResult
  abortAt : Option ℚ

/-- `signal?.aborted` at time `t`, for a signal that fires at `abortAt`. -/
def signalAborted (abortAt : Option ℚ) (t : ℚ) : Bool :=
  match abortAt with
  | some a => decide (a ≤ t)
  | none => false

/-- End time of the interruptible sleep started at `now` for `delay`
milliseconds: the `abort` listener resolves the promise early if the
signal fires strictly during the sleep; a signal already aborted when
the listener is installed never fires it, so the timer runs out. -/
def wakeTime (abortAt : Option ℚ) (now delay : ℚ) : ℚ :=
  match abortAt with
  | some a => if now < a then qmin (qadd now delay) a else qadd now delay
  | none => qadd now delay

/-- One `checkStatus` invocation: the time it was issued and the sleep
delay observed immediately before it. -/
structure CheckEv where
  time : ℚ
  delay : ℚ
deriving DecidableEq

/-- Loop state of `pollUntilDone`: current backoff delay, current time,
and the chronological trace of `checkStatus` invocations so far. -/
structure PollState where
  delay : ℚ
  now : ℚ
  checks : List CheckEv

/-- Terminal outcome of `pollUntilDone`.  `outOfFuel` marks runs longer
than the supplied fuel; it corresponds to no source behaviour. -/
inductive PollResult where
  | success (videoUrl : String)
  | cancelled
  | timedOut
  | failedJob
  | outOfFuel
deriving DecidableEq

/-- `MAX_POLL_TIMEOUT = 5 * 60 * 1000`. -/
def MAX_POLL_TIMEOUT : ℚ := 300000

/-- `maxDelay = 10000`, the backoff cap. -/
def maxDelay : ℚ := 10000

/-- The `while (true)` body of `pollUntilDone`, in source order:
abort check, timeout check, interruptible sleep, abort re-check,
`checkStatus` (the response to the `n`-th call where `n` counts the
checks already issued), terminal-status dispatch, backoff update.  The
source's local bindings (`t`, the response, the extended trace) are
inlined.  Structural recursion on explicit fuel keeps the definition
kernel-computable. -/
def pollLoop (w : PollWorld) : ℕ → PollState → PollResult × List CheckEv
  | 0, st => (PollResult.outOfFuel, st.checks)
  | fuel + 1, st =>
    if signalAborted w.abortAt st.now then (PollResult.cancelled, st.checks)
    else if MAX_POLL_TIMEOUT < st.now then (PollResult.timedOut, st.checks)
    else if signalAborted w.abortAt (wakeTime w.abortAt st.now st.delay) then
      (PollResult.cancelled, st.checks)
    else if (w.statusOf st.checks.length).status = "completed"
        ∧ truthyStr (w.statusOf st.checks.length).videoUrl = true then
      (PollResult.success ((w.statusOf st.checks.length).videoUrl.getD ""),
        st.checks ++ [⟨wakeTime w.abortAt st.now st.delay, st.delay⟩])
    else if (w.statusOf st.checks.length).status = "failed" then
      (PollResult.failedJob, st.checks ++ [⟨wakeTime w.abortAt st.now st.delay, st.delay⟩])
    else
      pollLoop w fuel
        ⟨qmin (qmul st.delay backoffFactor) maxDelay,
          wakeTime w.abortAt st.now st.delay,
          st.checks ++ [⟨wakeTime w.abortAt st.now st.delay, st.delay⟩]⟩

/-- `pollUntilDone`: the loop entered with `delay = 3000`, at time 0,
with no checks issued yet. -/
def pollUntilDone (w : PollWorld) (fuel : ℕ) : PollResult × List CheckEv :=
  pollLoop w fuel ⟨3000, 0, []⟩

/-- The sequence of sleep delays observed across successive status
checks of a run. -/
def sleepDelays (w : PollWorld) (fuel : ℕ) : List ℚ :=
  (pollUntilDone w fuel).2.map CheckEv.delay

/-- Invariant relating the trace of checks issued so far to the current
backoff delay: the delay stays within `[3000, 10000]`, the first sleep
used 3000, recorded delays are bounded, non-decreasing, consecutive
ones are related by the capped `1.3` multiplication, and the current
delay is the capped multiple of the last recorded one. -/
def DelayInv (l : List CheckEv) (d : ℚ) : Prop :=
  3000 ≤ d ∧ d ≤ 10000
  ∧ (l = [] → d = 3000)
  ∧ (∀ ev, l.head? = some ev → ev.delay = 3000)
  ∧ (∀ ev ∈ l, 3000 ≤ ev.delay ∧ ev.delay ≤ 10000 ∧ ev.delay ≤ d)
  ∧ List.Pairwise (fun a b => a.delay ≤ b.delay) l
  ∧ (∀ i : ℕ, ∀ x y, l[i]? = some x → l[i + 1]? = some y →
      y.delay = qmin (qmul x.delay backoffFactor) maxDelay)
  ∧ (∀ ev, l.getLast? = some ev → d = qmin (qmul ev.delay backoffFactor) maxDelay)

/-- The delay-related conclusions about a finished trace: first sleep
3000, all sleeps within `[3000, 10000]`, non-decreasing, consecutive
sleeps relate by the capped `1.3` multiplication. -/
def DelaysOk (l : List CheckEv) : Prop :=
  (∀ ev, l.head? = some ev → ev.delay = 3000)
  ∧ (∀ ev ∈ l, 3000 ≤ ev.delay ∧ ev.delay ≤ 10000)
  ∧ List.Pairwise (fun a b => a.delay ≤ b.delay) l
  ∧ (∀ i : ℕ, ∀ x y, l[i]? = some x → l[i + 1]? = some y →
      y.delay = qmin (qmul x.delay backoffFactor) maxDelay)

/-- The always-`processing` status response. -/
def procResult : StatusResult := ⟨"processing", none⟩

/-- A transport that always answers `processing`, with no cancellation. -/
def wProc : PollWorld := ⟨fun _ => procResult, none⟩

/-- A transport that always answers `processing`, with the signal
aborted at time 0 (before the first poll). -/
def wAbortBefore : PollWorld := ⟨fun _ => procResult, some 0⟩

/-- A transport that always answers `processing`, with the signal
aborted at time 10000 (during the third sleep). -/
def wAbortLater : PollWorld := ⟨fun _ => procResult, some 10000⟩

/-- A transport whose first response is `processing` and whose second is
`completed` with a video URL, with no cancellation. -/
def wSucc : PollWorld :=
  ⟨fun n => if n = 0 then procResult else ⟨"completed", some "http://v"⟩, none⟩

/-! ## Generation orchestration (`startGeneration` in `app/app/index.tsx`) -/

/-- Terminal non-success causes arising after a successful submission
(thrown out of `pollUntilDone` / `checkStatus`), per the error taxonomy. -/
inductive GenError where
  | providerReportedFailure
  | protocolError
  | timeout
  | cancelled
deriving DecidableEq

/-- Outcome of the awaited pipeline inside `startGeneration`'s `try`
block: success carries the job id, the downloaded video and the
extracted continuation frame; `submitRejected` is `generateVideo`
throwing (so no job id was ever recorded); `pollFailure` is a failure
after the job id was recorded on the clip. -/
inductive GenOutcome where
  | success (taskId videoUri lastFrameUri : String)
  | submitRejected
  | pollFailure (taskId : String) (e : GenError)
deriving DecidableEq

/-- Whether the pipeline ended in a terminal non-success outcome. -/
def GenOutcome.isFailure : GenOutcome → Bool
  | .success _ _ _ => false
  | .submitRejected => true
  | .pollFailure _ _ => true

/-- Whether the pipeline ended in user-initiated cancellation. -/
def GenOutcome.isCancelled : GenOutcome → Bool
  | .pollFailure _ GenError.cancelled => true
  | _ => false

/-- `startGeneration` from `app/app/index.tsx`, with the awaited calls
abstracted into `outcome` and `controller.signal.aborted` at `catch`
time into `aborted`.  Returns the store contents after the run and
whether the `Generation Failed` modal was shown.  Source order:
`addClip` (status `'generating'`), then on submission success
`updateClip(clipId, \x7b klingTaskId \x7d)`, then on pipeline success
`updateClip(clipId, \x7b videoUri, lastFrameUri, status: 'done' \x7d)`;
in `catch`, `updateClip(clipId, \x7b status: 'failed' \x7d)` and the modal
only `if (!controller.signal.aborted)`. -/
def startGeneration (clips : List Clip) (clipId imageUri prompt : String)
    (outcome : GenOutcome) (aborted : Bool) : List Clip × Bool :=
  let clips1 := addClip clips clipId imageUri prompt
  match outcome with
  | .success taskId videoUri lastFrameUri =>
      let clips2 := updateClip clips1 clipId { klingTaskId := some (some taskId) }
      (updateClip clips2 clipId
        { videoUri := some (some videoUri), lastFrameUri := some (some lastFrameUri),
          status := some ClipStatus.done }, false)
  | .submitRejected =>
      (updateClip clips1 clipId { status := some ClipStatus.failed }, !aborted)
  | .pollFailure taskId _ =>
      let clips2 := updateClip clips1 clipId { klingTaskId := some (some taskId) }
      (updateClip clips2 clipId { status := some ClipStatus.failed }, !aborted)

/-! ## Simulation backend (`worker/src/index.ts`, dummy mode) -/

/-- `DUMMY_DELAY_MS = 8_000`. -/
def DUMMY_DELAY_MS : ℕ := 8000

/-- Decimal digit characters of `n`, most significant first (fuel-based
so that it is structurally recursive; `natToString` supplies enough
fuel).  Matches JavaScript number-to-string conversion on naturals. -/
def natCharsAux : ℕ → ℕ → List Char
  | 0, _ => []
  | fuel + 1, n =>
      if n < 10 then [Nat.digitChar n]
      else natCharsAux fuel (n / 10) ++ [Nat.digitChar (n % 10)]

/-- The decimal string of a natural number, as produced by the template
literal interpolation of `readyAt` in the worker. -/
def natToString (n : ℕ) : String := ⟨natCharsAux (n + 1) n⟩

/-- The simulated job id built by `handleGenerateDummy`:
the template literal `dummy_` followed by the ready-at timestamp. -/
def dummyTaskId (readyAt : ℕ) : String := "dummy_" ++ natToString readyAt

/-- JavaScript `String.prototype.startsWith`. -/
def jsStartsWith (s pre : String) : Bool := pre.data.isPrefixOf s.data

/-- Worker list for `String.prototype.split(sep)` (non-empty `sep`):
scans left to right, emitting the chunk before each occurrence of `sep`
and skipping the occurrence.  `fuel` at least the input length makes
the fuel bound unreachable; its fallback agrees with the no-match
result, so the value is fuel-independent on the calls made here. -/
def jsSplitAux (sep : List Char) : ℕ → List Char → List Char → List (List Char)
  | 0, cs, acc => [acc.reverse ++ cs]
  | fuel + 1, cs, acc =>
      match cs with
      | [] => [acc.reverse]
      | c :: rest =>
          if sep.isPrefixOf (c :: rest) then
            acc.reverse :: jsSplitAux sep fuel (rest.drop (sep.length - 1)) []
          else jsSplitAux sep fuel rest (c :: acc)

/-- JavaScript `s.split(sep)` for non-empty `sep`. -/
def jsSplit (s sep : String) : List String :=
  (jsSplitAux sep.data (s.data.length + 1) s.data []).map fun cs => ⟨cs⟩

/-- Numeric value of the maximal leading run of decimal digits;
`none` when there is no leading digit (the `NaN` case). -/
def parseLeadingDigits (cs : List Char) : Option ℕ :=
  let ds := cs.takeWhile Char.isDigit
  if ds.isEmpty then none
  else some (ds.foldl (fun a c => 10 * a + (c.toNat - 48)) 0)

/-- JavaScript `parseInt(s, 10)`: skip leading whitespace, accept an
optional sign, then read the maximal run of decimal digits; `NaN`
(here `none`) if no digit follows. -/
def jsParseInt (s : String) : Option ℤ :=
  match s.data.dropWhile Char.isWhitespace with
  | [] => none
  | c :: rest =>
      if c = '-' then (parseLeadingDigits rest).map fun v => -(v : ℤ)
      else if c = '+' then (parseLeadingDigits rest).map fun v => (v : ℤ)
      else (parseLeadingDigits (c :: rest)).map fun v => (v : ℤ)

/-- The status handler's parse of a task id:
`parseInt(taskId.split('dummy_')[1], 10)` guarded by the
`startsWith('dummy_')` check; `none` covers both the missing-tag
rejection and the `isNaN` rejection. -/
def decodeReadyAt (taskId : String) : Option ℤ :=
  if jsStartsWith taskId "dummy_" then
    match (jsSplit taskId "dummy_")[1]? with
    | none => none
    | some part => jsParseInt part
  else none

/-- Response of `POST /generate` in dummy mode. -/
inductive GenerateResponse where
  | badRequest
  | ok (taskId : String)
deriving DecidableEq

/-- `handleGenerateDummy`: reject when `image` or `prompt` is falsy
(empty), otherwise answer with the task id encoding
`readyAt = Date.now() + DUMMY_DELAY_MS`. -/
def handleGenerateDummy (image prompt : String) (now : ℕ) : GenerateResponse :=
  if image = "" ∨ prompt = "" then GenerateResponse.badRequest
  else GenerateResponse.ok (dummyTaskId (now + DUMMY_DELAY_MS))

/-- Response of `GET /status/:taskId` in dummy mode.  `notFound` is the
404 `Unknown task` response, `invalidTask` the 400 `Invalid task ID`
response. -/
inductive DummyStatusResponse where
  | notFound
  | invalidTask
  | processing
  | completed (videoUrl : String)
deriving DecidableEq

/-- `handleStatusDummy`: ids without the `dummy_` tag are 404
`Unknown task`; tagged ids whose embedded timestamp parses to `NaN`
are 400 `Invalid task ID`; otherwise `processing` strictly before the
ready-at time and `completed` (with the worker-proxied sample video
URL) at or after it. -/
def handleStatusDummy (taskId : String) (now : ℕ) (workerOrigin : String) :
    DummyStatusResponse :=
  if !jsStartsWith taskId "dummy_" then DummyStatusResponse.notFound
  else
    match decodeReadyAt taskId with
    | none => DummyStatusResponse.invalidTask
    | some readyAt =>
        if (now : ℤ) < readyAt then DummyStatusResponse.processing
        else DummyStatusResponse.completed (workerOrigin ++ "/dummy-video")

/-! ## Bridge lemmas for the kernel-evaluable rational operations -/

theorem qmul_eq (a b : ℚ) : qmul a b = a * b := by
  rw [qmul]
  conv_rhs => rw [← Rat.num_divInt_den a, ← Rat.num_divInt_den b]
  rw [Rat.divInt_mul_divInt']

theorem qadd_eq (a b : ℚ) : qadd a b = a + b := by
  rw [qadd]
  conv_rhs => rw [← Rat.num_divInt_den a, ← Rat.num_divInt_den b]
  rw [Rat.divInt_add_divInt _ _ (by exact_mod_cast a.den_nz) (by exact_mod_cast b.den_nz)]

theorem qmin_eq (a b : ℚ) : qmin a b = min a b := by
  rw [qmin, min_def]

theorem backoffFactor_eq : backoffFactor = 13 / 10 := by
  rw [backoffFactor, Rat.divInt_eq_div]
  norm_num

/-! ## Store lemmas -/

theorem updateClip_of_not_mem (clips : List Clip) (id : String) (u : ClipUpdates)
    (h : id ∉ clips.map Clip.id) : updateClip clips id u = clips := by
  have h' : ∀ c ∈ clips, (if c.id = id then applyUpdates c u else c) = c := by
    intro c hc
    rw [if_neg]
    intro hcid
    exact h (by simpa [hcid] using List.mem_map_of_mem Clip.id hc)
  calc updateClip clips id u = clips.map (fun c => c) := List.map_congr_left h'
    _ = clips := by simp

/-- C9: `updateClip` with an absent id leaves the chain unchanged; with
any id it preserves length and order, changing exactly the records whose
id matches (merging the given fields) and leaving every other record
untouched. -/
theorem C9_updateClip_frame (clips : List Clip) (id : String) (u : ClipUpdates) :
    (id ∉ clips.map Clip.id → updateClip clips id u = clips)
    ∧ (updateClip clips id u).length = clips.length
    ∧ ∀ i : ℕ, (updateClip clips id u)[i]? =
        (clips[i]?).map fun c => if c.id = id then applyUpdates c u else c := by
  refine ⟨updateClip_of_not_mem clips id u, ?_, ?_⟩
  · simp [updateClip]
  · intro i
    simp [updateClip, List.getElem?_map]

/-- C9 witness: concrete no-op on an absent id, and a concrete merge on
a present id. -/
theorem C9_updateClip_frame_witness :
    updateClip [⟨"a", "i", "p", none, none, ClipStatus.pending, none⟩] "zz"
        { status := some ClipStatus.done } =
      [⟨"a", "i", "p", none, none, ClipStatus.pending, none⟩] :=
  (C9_updateClip_frame _ "zz" _).1 (by decide)

/-- C1: the claim correctly describes the revised store (and the spec),
but `getLastClip` as committed in `app/store/useClipStore.ts` returns
the trailing record by position: on a chain holding a done clip followed
by a failed clip it returns the failed record, never skipping it, while
the revised store returns the done record. -/
theorem C1_getLastClip_divergence :
    StoreApp.getLastClip
        [⟨"a", "imgA", "A", some "vidA", some "frA", ClipStatus.done, none⟩,
         ⟨"b", "imgB", "B", none, none, ClipStatus.failed, none⟩] =
      some ⟨"b", "imgB", "B", none, none, ClipStatus.failed, none⟩
    ∧ (ClipStatus.failed ≠ ClipStatus.done)
    ∧ StoreFixed.getLastClip
        [⟨"a", "imgA", "A", some "vidA", some "frA", ClipStatus.done, none⟩,
         ⟨"b", "imgB", "B", none, none, ClipStatus.failed, none⟩] =
      some ⟨"a", "imgA", "A", some "vidA", some "frA", ClipStatus.done, none⟩ := by
  decide

/-- C2: the narrative context is the raw prompt when no clip is done;
with exactly one done clip its prompt is framed as the previous scene
and the new prompt as the current scene with the continuity instruction
appended; with two or more done clips exactly the prompts of the two
most recent done clips appear, with `Two scenes ago` / `Previous scene`
framing, and every older done clip is omitted. -/
theorem C2_getContextPrompt (clips : List Clip) (p : String) :
    (clips.filter (fun c => decide (c.status = ClipStatus.done)) = [] →
      getContextPrompt clips p = p)
    ∧ (∀ a, clips.filter (fun c => decide (c.status = ClipStatus.done)) = [a] →
      getContextPrompt clips p =
        "Previous scene: \"" ++ a.prompt ++ "\"" ++ "\n" ++
        "Current scene (continuing from the last frame): \"" ++ p ++ "\"" ++ "\n" ++
        "Maintain smooth visual and motion continuity.")
    ∧ (∀ pre a b,
        clips.filter (fun c => decide (c.status = ClipStatus.done)) = pre ++ [a, b] →
      getContextPrompt clips p =
        "Two scenes ago: \"" ++ a.prompt ++ "\"" ++ "\n" ++
        "Previous scene: \"" ++ b.prompt ++ "\"" ++ "\n" ++
        "Current scene (continuing from the last frame): \"" ++ p ++ "\"" ++ "\n" ++
        "Maintain smooth visual and motion continuity.") := by
  refine ⟨?_, ?_, ?_⟩
  · intro h
    simp [getContextPrompt, h]
  · intro a ha
    simp only [getContextPrompt, ha]
    norm_num [jsJoin, String.append_assoc]
  · intro pre a b hab
    have hlen : (pre ++ [a, b]).length = pre.length + 2 := by simp
    have hdrop : (pre ++ [a, b]).drop ((pre ++ [a, b]).length - 2) = [a, b] := by
      rw [hlen]
      simp [List.drop_left]
    simp only [getContextPrompt, hab, hlen, hdrop]
    norm_num [jsJoin, String.append_assoc]

/-- C2 witness: a chain with three done clips (prompts `A`, `B`, `C`)
and one failed clip yields the two-scene context referencing only `B`
and `C`. -/
theorem C2_getContextPrompt_witness :
    getContextPrompt
      [⟨"1", "i1", "A", none, none, ClipStatus.done, none⟩,
       ⟨"2", "i2", "B", none, none, ClipStatus.done, none⟩,
       ⟨"3", "i3", "X", none, none, ClipStatus.failed, none⟩,
       ⟨"4", "i4", "C", none, none, ClipStatus.done, none⟩] "D" =
      "Two scenes ago: \"" ++ "B" ++ "\"" ++ "\n" ++
      "Previous scene: \"" ++ "C" ++ "\"" ++ "\n" ++
      "Current scene (continuing from the last frame): \"" ++ "D" ++ "\"" ++ "\n" ++
      "Maintain smooth visual and motion continuity." :=
  (C2_getContextPrompt _ "D").2.2
    [⟨"1", "i1", "A", none, none, ClipStatus.done, none⟩]
    ⟨"2", "i2", "B", none, none, ClipStatus.done, none⟩
    ⟨"4", "i4", "C", none, none, ClipStatus.done, none⟩ (by decide)

theorem updateClip_append (clips : List Clip) (c : Clip) (id : String) (u : ClipUpdates)
    (hfresh : id ∉ clips.map Clip.id) (hc : c.id = id) :
    updateClip (clips ++ [c]) id u = clips ++ [applyUpdates c u] := by
  have h1 := updateClip_of_not_mem clips id u hfresh
  rw [updateClip] at h1 ⊢
  rw [List.map_append, h1]
  simp [hc]

/-- C6: whatever terminal outcome the generation pipeline reaches, the
run leaves the pre-existing chain untouched and the owning record (the
one appended by `addClip`) in a terminal status: `done` on success and
`failed` on every non-success outcome (submission rejection, provider
failure, protocol error, timeout, cancellation) — never stuck in
`generating` — and the failure modal is shown exactly for the
non-success outcomes other than cancellation. -/
theorem C6_startGeneration_outcomes
    (clips : List Clip) (clipId imageUri prompt : String)
    (outcome : GenOutcome) (aborted : Bool)
    (hfresh : clipId ∉ clips.map Clip.id)
    (habort : aborted = outcome.isCancelled) :
    (outcome.isFailure = true →
      ∃ c : Clip,
        (startGeneration clips clipId imageUri prompt outcome aborted).1 = clips ++ [c]
        ∧ c.id = clipId ∧ c.status = ClipStatus.failed)
    ∧ (∃ c : Clip,
        (startGeneration clips clipId imageUri prompt outcome aborted).1 = clips ++ [c]
        ∧ c.id = clipId
        ∧ (c.status = ClipStatus.done ∨ c.status = ClipStatus.failed))
    ∧ ((startGeneration clips clipId imageUri prompt outcome aborted).2 = true ↔
        (outcome.isFailure = true ∧ outcome.isCancelled = false)) := by
  cases outcome with
  | success taskId videoUri lastFrameUri =>
      have h1 : startGeneration clips clipId imageUri prompt
          (GenOutcome.success taskId videoUri lastFrameUri) aborted =
          (clips ++ [⟨clipId, imageUri, prompt, some videoUri, some lastFrameUri,
            ClipStatus.done, some taskId⟩], false) := by
        show (updateClip (updateClip (addClip clips clipId imageUri prompt) clipId _)
          clipId _, false) = _
        rw [addClip, updateClip_append clips _ clipId _ hfresh rfl,
          updateClip_append clips _ clipId _ hfresh rfl]
        rfl
      refine ⟨?_, ?_, ?_⟩
      · intro hfail
        simp [GenOutcome.isFailure] at hfail
      · exact ⟨_, by rw [h1], rfl, Or.inl rfl⟩
      · rw [h1]
        simp [GenOutcome.isFailure]
  | submitRejected =>
      simp only [GenOutcome.isCancelled] at habort
      have h1 : startGeneration clips clipId imageUri prompt GenOutcome.submitRejected
          aborted =
          (clips ++ [⟨clipId, imageUri, prompt, none, none,
            ClipStatus.failed, none⟩], !aborted) := by
        show (updateClip (addClip clips clipId imageUri prompt) clipId _, !aborted) = _
        rw [addClip, updateClip_append clips _ clipId _ hfresh rfl]
        rfl
      refine ⟨?_, ?_, ?_⟩
      · intro _
        exact ⟨_, by rw [h1], rfl, rfl⟩
      · exact ⟨_, by rw [h1], rfl, Or.inr rfl⟩
      · rw [h1, habort]
        simp [GenOutcome.isFailure, GenOutcome.isCancelled]
  | pollFailure taskId e =>
      have h1 : startGeneration clips clipId imageUri prompt
          (GenOutcome.pollFailure taskId e) aborted =
          (clips ++ [⟨clipId, imageUri, prompt, none, none,
            ClipStatus.failed, some taskId⟩], !aborted) := by
        show (updateClip (updateClip (addClip clips clipId imageUri prompt) clipId _)
          clipId _, !aborted) = _
        rw [addClip, updateClip_append clips _ clipId _ hfresh rfl,
          updateClip_append clips _ clipId _ hfresh rfl]
        rfl
      refine ⟨?_, ?_, ?_⟩
      · intro _
        exact ⟨_, by rw [h1], rfl, rfl⟩
      · exact ⟨_, by rw [h1], rfl, Or.inr rfl⟩
      · rw [h1, habort]
        cases e <;> simp [GenOutcome.isFailure, GenOutcome.isCancelled]

/-- C6 witness: a concrete timed-out attempt on an empty chain patches
the appended record to `failed`. -/
theorem C6_startGeneration_outcomes_witness :
    ∃ c : Clip,
      (startGeneration [] "x" "img" "p" (GenOutcome.pollFailure "t" GenError.timeout)
          false).1 = [] ++ [c]
      ∧ c.id = "x" ∧ c.status = ClipStatus.failed :=
  (C6_startGeneration_outcomes [] "x" "img" "p"
      (GenOutcome.pollFailure "t" GenError.timeout) false (by decide) (by decide)).1
    (by decide)

/-! ## Simulation backend lemmas -/

theorem digitChar_facts : ∀ d < 10, (Nat.digitChar d).isDigit = true ∧
    (Nat.digitChar d).toNat - 48 = d ∧ Nat.digitChar d ≠ 'd' ∧
    (Nat.digitChar d).isWhitespace = false ∧
    Nat.digitChar d ≠ '-' ∧ Nat.digitChar d ≠ '+' := by decide

theorem natCharsAux_mem (fuel n : ℕ) :
    ∀ c ∈ natCharsAux fuel n, ∃ d, d < 10 ∧ c = Nat.digitChar d := by
  induction fuel generalizing n with
  | zero => simp [natCharsAux]
  | succ fuel ih =>
      intro c hc
      rw [natCharsAux] at hc
      by_cases h : n < 10
      · rw [if_pos h] at hc
        simp at hc
        exact ⟨n, h, hc⟩
      · rw [if_neg h] at hc
        rcases List.mem_append.mp hc with h1 | h2
        · exact ih (n / 10) c h1
        · simp at h2
          exact ⟨n % 10, Nat.mod_lt _ (by norm_num), h2⟩

theorem natCharsAux_ne_nil (fuel n : ℕ) : natCharsAux (fuel + 1) n ≠ [] := by
  rw [natCharsAux]
  by_cases h : n < 10
  · simp [h]
  · simp [h]

theorem natCharsAux_foldl (fuel : ℕ) : ∀ n acc, n < 10 ^ fuel →
    (natCharsAux fuel n).foldl (fun a c => 10 * a + (c.toNat - 48)) acc =
      acc * 10 ^ (natCharsAux fuel n).length + n := by
  induction fuel with
  | zero =>
      intro n acc hn
      have h0 : n = 0 := Nat.lt_one_iff.mp (by simpa using hn)
      subst h0
      simp [natCharsAux]
  | succ fuel ih =>
      intro n acc hn
      rw [natCharsAux]
      by_cases h : n < 10
      · rw [if_pos h]
        have hd := (digitChar_facts n h).2.1
        simp [hd]
        ring
      · rw [if_neg h]
        have hdiv : n / 10 < 10 ^ fuel := by
          rw [Nat.div_lt_iff_lt_mul (by norm_num)]
          calc n < 10 ^ (fuel + 1) := hn
            _ = 10 ^ fuel * 10 := by rw [pow_succ]
        rw [List.foldl_append, List.foldl_cons, List.foldl_nil, ih (n / 10) acc hdiv]
        have hd := (digitChar_facts (n % 10) (Nat.mod_lt _ (by norm_num))).2.1
        rw [hd, List.length_append, List.length_cons, List.length_nil]
        calc 10 * (acc * 10 ^ (natCharsAux fuel (n / 10)).length + n / 10) + n % 10
            = acc * (10 ^ (natCharsAux fuel (n / 10)).length * 10) +
              (10 * (n / 10) + n % 10) := by ring
          _ = acc * 10 ^ ((natCharsAux fuel (n / 10)).length + (0 + 1)) + n := by
              rw [Nat.div_add_mod, pow_succ]

theorem jsParseInt_natToString (n : ℕ) : jsParseInt (natToString n) = some (n : ℤ) := by
  obtain ⟨c, t, hct⟩ : ∃ c t, natCharsAux (n + 1) n = c :: t := by
    cases h : natCharsAux (n + 1) n with
    | nil => exact absurd h (natCharsAux_ne_nil n n)
    | cons c t => exact ⟨c, t, rfl⟩
  obtain ⟨d, hd, hcd⟩ := natCharsAux_mem (n + 1) n c (by rw [hct]; exact List.mem_cons_self c t)
  have hdata : (natToString n).data = natCharsAux (n + 1) n := rfl
  have hdigits : ∀ x ∈ natCharsAux (n + 1) n, x.isDigit = true := by
    intro x hx
    obtain ⟨e, he, rfl⟩ := natCharsAux_mem (n + 1) n x hx
    exact (digitChar_facts e he).1
  have hws : c.isWhitespace = false := by rw [hcd]; exact (digitChar_facts d hd).2.2.2.1
  have hdw : (natCharsAux (n + 1) n).dropWhile Char.isWhitespace = c :: t := by
    rw [hct, List.dropWhile_cons, hws]
    simp
  have hminus : ¬c = '-' := by rw [hcd]; exact (digitChar_facts d hd).2.2.2.2.1
  have hplus : ¬c = '+' := by rw [hcd]; exact (digitChar_facts d hd).2.2.2.2.2
  have htw : (c :: t).takeWhile Char.isDigit = c :: t := by
    apply List.takeWhile_eq_self_iff.mpr
    rw [← hct]
    exact hdigits
  have hbound : n < 10 ^ (n + 1) :=
    calc n < 10 ^ n := Nat.lt_pow_self (by norm_num) n
      _ ≤ 10 ^ (n + 1) := Nat.pow_le_pow_right (by norm_num) (Nat.le_succ n)
  have hfold := natCharsAux_foldl (n + 1) n 0 hbound
  rw [hct] at hfold
  rw [jsParseInt, hdata, hdw]
  show (if c = '-' then (parseLeadingDigits t).map (fun v => -(v : ℤ))
      else if c = '+' then (parseLeadingDigits t).map (fun v => (v : ℤ))
      else (parseLeadingDigits (c :: t)).map (fun v => (v : ℤ))) = some (n : ℤ)
  rw [if_neg hminus, if_neg hplus, parseLeadingDigits, htw]
  simp only [List.isEmpty_cons, if_false, Bool.false_eq_true]
  rw [hfold]
  simp

theorem jsSplitAux_no_match (c0 : Char) (s' : List Char) :
    ∀ fuel cs acc, (∀ c ∈ cs, c ≠ c0) →
      jsSplitAux (c0 :: s') fuel cs acc = [acc.reverse ++ cs] := by
  intro fuel
  induction fuel with
  | zero =>
      intro cs acc _
      rw [jsSplitAux]
  | succ fuel ih =>
      intro cs acc h
      cases cs with
      | nil =>
          rw [jsSplitAux]
          simp
      | cons c rest =>
          rw [jsSplitAux]
          have hne : ¬(c0 = c) := fun he => h c (List.mem_cons_self c rest) he.symm
          have hnotpre : (c0 :: s').isPrefixOf (c :: rest) = false := by
            simp [List.isPrefixOf, hne]
          rw [hnotpre]
          simp only [Bool.false_eq_true, if_false]
          rw [ih rest (c :: acc) (fun x hx => h x (List.mem_cons_of_mem c hx))]
          simp

theorem jsSplit_tag (tail : List Char) (h : ∀ c ∈ tail, c ≠ 'd') :
    jsSplit ⟨"dummy_".data ++ tail⟩ "dummy_" = ["", ⟨tail⟩] := by
  rw [jsSplit]
  show (jsSplitAux "dummy_".data (("dummy_".data ++ tail).length + 1)
      ("dummy_".data ++ tail) []).map (fun cs => String.mk cs) = _
  have hlen : ("dummy_".data ++ tail).length + 1 = (tail.length + 6) + 1 := by
    rw [List.length_append]
    show 6 + tail.length + 1 = tail.length + 6 + 1
    omega
  rw [hlen]
  have hcons : "dummy_".data ++ tail = 'd' :: ("ummy_".data ++ tail) := rfl
  rw [hcons, jsSplitAux]
  have hpre : ("dummy_".data).isPrefixOf ('d' :: ("ummy_".data ++ tail)) = true := by
    show ("dummy_".data).isPrefixOf ("dummy_".data ++ tail) = true
    rw [List.isPrefixOf_iff_prefix]
    exact List.prefix_append _ _
  rw [hpre]
  simp only [if_true]
  have hdrop : ("ummy_".data ++ tail).drop ("dummy_".data.length - 1) = tail := by
    show ("ummy_".data ++ tail).drop 5 = tail
    exact List.drop_left' rfl
  rw [hdrop]
  rw [jsSplitAux_no_match 'd' ['u', 'm', 'm', 'y', '_'] (tail.length + 6) tail [] h]
  simp

theorem jsStartsWith_dummyTaskId (n : ℕ) :
    jsStartsWith (dummyTaskId n) "dummy_" = true := by
  rw [jsStartsWith, dummyTaskId, String.data_append, List.isPrefixOf_iff_prefix]
  exact List.prefix_append _ _

theorem natToString_chars_ne (n : ℕ) : ∀ c ∈ (natToString n).data, c ≠ 'd' := by
  intro c hc
  obtain ⟨d, hd, rfl⟩ := natCharsAux_mem (n + 1) n c hc
  exact (digitChar_facts d hd).2.2.1

theorem decodeReadyAt_encode (n : ℕ) : decodeReadyAt (dummyTaskId n) = some (n : ℤ) := by
  have hmk : dummyTaskId n = String.mk ("dummy_".data ++ (natToString n).data) := by
    apply String.ext
    rw [dummyTaskId, String.data_append]
  rw [decodeReadyAt, jsStartsWith_dummyTaskId]
  simp only [if_true]
  rw [hmk, jsSplit_tag _ (natToString_chars_ne n)]
  show jsParseInt (String.mk (natToString n).data) = some (n : ℤ)
  exact jsParseInt_natToString n

/-- C10: encoding a ready-at timestamp (any natural number in the safe
integer range) into a simulated job id and decoding it with the status
handler's parse recovers exactly the original timestamp. -/
theorem C10_taskId_roundtrip (n : ℕ) (_hsafe : n ≤ 2 ^ 53) :
    decodeReadyAt (dummyTaskId n) = some (n : ℤ) :=
  decodeReadyAt_encode n

/-- C10 witness: the round trip at the concrete timestamp 123456789. -/
theorem C10_taskId_roundtrip_witness :
    (123456789 : ℕ) ≤ 2 ^ 53 ∧ decodeReadyAt (dummyTaskId 123456789) = some 123456789 :=
  ⟨by norm_num, C10_taskId_roundtrip 123456789 (by norm_num)⟩

/-- C5 counterexample to the claim as stated: the tagged id `dummy_x`
has an embedded timestamp that fails to decode, and the worker rejects
it with the 400 `Invalid task ID` response, not with the 404
`Unknown task` (not found) response the claim requires. -/
theorem C5_invalid_not_notFound :
    handleStatusDummy "dummy_x" 0 "o" = DummyStatusResponse.invalidTask
    ∧ DummyStatusResponse.invalidTask ≠ DummyStatusResponse.notFound := by
  constructor
  · rfl
  · decide

/-- C5 (amended): a valid submission at time `T` yields the job id
`dummy_` followed by `T + DUMMY_DELAY_MS`; checking that id strictly
before the encoded ready-at time reports `processing` and at or after
it reports `completed` with the worker's fixed sample-video reference;
an id without the `dummy_` tag is rejected as not found (404), while a
tagged id whose timestamp fails to decode is rejected as an invalid
task id (400).  The handlers are pure functions of the identifier and
the current time. -/
theorem C5_simulation_backend :
    (∀ image prompt : String, ∀ now : ℕ, image ≠ "" → prompt ≠ "" →
      handleGenerateDummy image prompt now =
        GenerateResponse.ok (dummyTaskId (now + DUMMY_DELAY_MS)))
    ∧ (∀ T now : ℕ, ∀ origin : String, now < T + DUMMY_DELAY_MS →
        handleStatusDummy (dummyTaskId (T + DUMMY_DELAY_MS)) now origin =
          DummyStatusResponse.processing)
    ∧ (∀ T now : ℕ, ∀ origin : String, T + DUMMY_DELAY_MS ≤ now →
        handleStatusDummy (dummyTaskId (T + DUMMY_DELAY_MS)) now origin =
          DummyStatusResponse.completed (origin ++ "/dummy-video"))
    ∧ (∀ id : String, ∀ now : ℕ, ∀ origin : String,
        jsStartsWith id "dummy_" = false →
        handleStatusDummy id now origin = DummyStatusResponse.notFound)
    ∧ (∀ id : String, ∀ now : ℕ, ∀ origin : String,
        jsStartsWith id "dummy_" = true → decodeReadyAt id = none →
        handleStatusDummy id now origin = DummyStatusResponse.invalidTask) := by
  refine ⟨?_, ?_, ?_, ?_, ?_⟩
  · intro image prompt now himg hp
    rw [handleGenerateDummy, if_neg]
    push_neg
    exact ⟨himg, hp⟩
  · intro T now origin hlt
    rw [handleStatusDummy, jsStartsWith_dummyTaskId]
    simp only [Bool.not_true, Bool.false_eq_true, if_false]
    rw [decodeReadyAt_encode]
    show (if (now : ℤ) < ((T + DUMMY_DELAY_MS : ℕ) : ℤ) then DummyStatusResponse.processing
        else DummyStatusResponse.completed (origin ++ "/dummy-video")) = _
    rw [if_pos]
    exact_mod_cast hlt
  · intro T now origin hge
    rw [handleStatusDummy, jsStartsWith_dummyTaskId]
    simp only [Bool.not_true, Bool.false_eq_true, if_false]
    rw [decodeReadyAt_encode]
    show (if (now : ℤ) < ((T + DUMMY_DELAY_MS : ℕ) : ℤ) then DummyStatusResponse.processing
        else DummyStatusResponse.completed (origin ++ "/dummy-video")) = _
    rw [if_neg]
    push_neg
    exact_mod_cast hge
  · intro id now origin hid
    rw [handleStatusDummy, hid]
    simp
  · intro id now origin hid hdec
    rw [handleStatusDummy, hid, hdec]
    simp

/-- C5 witness: at submission time 0 the job is `processing` one
millisecond before the ready-at time and `completed` with the proxied
sample-video URL at it; a garbage id is not found. -/
theorem C5_simulation_backend_witness :
    handleStatusDummy (dummyTaskId (0 + DUMMY_DELAY_MS)) 7999 "http://w" =
      DummyStatusResponse.processing
    ∧ handleStatusDummy (dummyTaskId (0 + DUMMY_DELAY_MS)) 8000 "http://w" =
      DummyStatusResponse.completed ("http://w" ++ "/dummy-video")
    ∧ handleStatusDummy "garbage" 0 "http://w" = DummyStatusResponse.notFound :=
  ⟨C5_simulation_backend.2.1 0 7999 "http://w" (by norm_num [DUMMY_DELAY_MS]),
   C5_simulation_backend.2.2.1 0 8000 "http://w" (by norm_num [DUMMY_DELAY_MS]),
   C5_simulation_backend.2.2.2.1 "garbage" 0 "http://w" (by decide)⟩

/-! ## Polling controller lemmas -/

theorem pollLoop_fuel_mono (w : PollWorld) :
    ∀ fuel st res tr, pollLoop w fuel st = (res, tr) → res ≠ PollResult.outOfFuel →
      ∀ fuel2, fuel ≤ fuel2 → pollLoop w fuel2 st = (res, tr) := by
  intro fuel
  induction fuel with
  | zero =>
      intro st res tr h hne _ _
      rw [pollLoop] at h
      cases h
      exact absurd rfl hne
  | succ fuel ih =>
      intro st res tr h hne fuel2 hle
      obtain ⟨fuel3, rfl⟩ : ∃ k, fuel2 = k + 1 := ⟨fuel2 - 1, by omega⟩
      rw [pollLoop] at h ⊢
      by_cases h1 : signalAborted w.abortAt st.now = true
      · rw [if_pos h1] at h ⊢
        exact h
      · rw [if_neg h1] at h ⊢
        by_cases h2 : MAX_POLL_TIMEOUT < st.now
        · rw [if_pos h2] at h ⊢
          exact h
        · rw [if_neg h2] at h ⊢
          by_cases h3 : signalAborted w.abortAt (wakeTime w.abortAt st.now st.delay) = true
          · rw [if_pos h3] at h ⊢
            exact h
          · rw [if_neg h3] at h ⊢
            by_cases h4 : (w.statusOf st.checks.length).status = "completed"
                ∧ truthyStr (w.statusOf st.checks.length).videoUrl = true
            · rw [if_pos h4] at h ⊢
              exact h
            · rw [if_neg h4] at h ⊢
              by_cases h5 : (w.statusOf st.checks.length).status = "failed"
              · rw [if_pos h5] at h ⊢
                exact h
              · rw [if_neg h5] at h ⊢
                exact ih _ res tr h hne fuel3 (by omega)

theorem pollLoop_congr_processing (f g : ℕ → StatusResult) (ab : Option ℚ)
    (hf : ∀ n, (f n).status = "processing") (hg : ∀ n, (g n).status = "processing") :
    ∀ fuel st, pollLoop ⟨f, ab⟩ fuel st = pollLoop ⟨g, ab⟩ fuel st := by
  intro fuel
  induction fuel with
  | zero =>
      intro st
      rw [pollLoop, pollLoop]
  | succ fuel ih =>
      intro st
      rw [pollLoop, pollLoop]
      dsimp only
      have hfc : ¬((f st.checks.length).status = "completed"
          ∧ truthyStr (f st.checks.length).videoUrl = true) := by
        intro hc
        rw [hf] at hc
        exact absurd hc.1 (by decide)
      have hgc : ¬((g st.checks.length).status = "completed"
          ∧ truthyStr (g st.checks.length).videoUrl = true) := by
        intro hc
        rw [hg] at hc
        exact absurd hc.1 (by decide)
      have hff : ¬((f st.checks.length).status = "failed") := by
        rw [hf]
        decide
      have hgf : ¬((g st.checks.length).status = "failed") := by
        rw [hg]
        decide
      by_cases h1 : signalAborted ab st.now = true
      · rw [if_pos h1, if_pos h1]
      · rw [if_neg h1, if_neg h1]
        by_cases h2 : MAX_POLL_TIMEOUT < st.now
        · rw [if_pos h2, if_pos h2]
        · rw [if_neg h2, if_neg h2]
          by_cases h3 : signalAborted ab (wakeTime ab st.now st.delay) = true
          · rw [if_pos h3, if_pos h3]
          · rw [if_neg h3, if_neg h3, if_neg hfc, if_neg hgc, if_neg hff, if_neg hgf]
            exact ih _

/-- C3: when every status check answers `processing` (and no
cancellation occurs), `pollUntilDone` reaches the `TimedOut` outcome —
and no other terminal outcome — after exactly 33 status checks, for
every fuel bound of at least 34 loop iterations: each iteration
compares the elapsed time with the five-minute deadline, and the
accumulated backoff sleeps (3000, 3900, 5070, … capped at 10000)
exceed 300000 after 33 checks. -/
theorem C3_always_processing_timesOut (f : ℕ → StatusResult)
    (hf : ∀ n, (f n).status = "processing") (fuel : ℕ) (hfuel : 34 ≤ fuel) :
    (pollUntilDone ⟨f, none⟩ fuel).1 = PollResult.timedOut
    ∧ (pollUntilDone ⟨f, none⟩ fuel).2.length = 33 := by
  have h34 : (pollUntilDone wProc 34).1 = PollResult.timedOut
      ∧ (pollUntilDone wProc 34).2.length = 33 := by decide
  have hcongr : pollUntilDone ⟨f, none⟩ fuel = pollUntilDone wProc fuel := by
    rw [pollUntilDone, pollUntilDone, wProc]
    exact pollLoop_congr_processing f (fun _ => procResult) none hf (fun _ => rfl) fuel _
  have hmono : pollLoop wProc fuel ⟨3000, 0, []⟩ =
      ((pollUntilDone wProc 34).1, (pollUntilDone wProc 34).2) := by
    apply pollLoop_fuel_mono wProc 34 ⟨3000, 0, []⟩ _ _ _ _ fuel hfuel
    · exact Prod.mk.eta.symm
    · rw [h34.1]
      decide
  have hfix : pollUntilDone wProc fuel =
      ((pollUntilDone wProc 34).1, (pollUntilDone wProc 34).2) := by
    rw [pollUntilDone]
    exact hmono
  rw [hcongr, hfix]
  exact h34

/-- C3 witness: the always-`processing` transport with fuel exactly 34. -/
theorem C3_always_processing_timesOut_witness :
    (pollUntilDone ⟨fun _ => procResult, none⟩ 34).1 = PollResult.timedOut
    ∧ (pollUntilDone ⟨fun _ => procResult, none⟩ 34).2.length = 33 :=
  C3_always_processing_timesOut (fun _ => procResult) (fun _ => rfl) 34 (by norm_num)

theorem pollLoop_checks_not_aborted (w : PollWorld) :
    ∀ fuel st, (∀ ev ∈ st.checks, signalAborted w.abortAt ev.time = false) →
      ∀ ev ∈ (pollLoop w fuel st).2, signalAborted w.abortAt ev.time = false := by
  intro fuel
  induction fuel with
  | zero =>
      intro st h
      rw [pollLoop]
      exact h
  | succ fuel ih =>
      intro st h
      rw [pollLoop]
      by_cases h1 : signalAborted w.abortAt st.now = true
      · rw [if_pos h1]
        exact h
      · rw [if_neg h1]
        by_cases h2 : MAX_POLL_TIMEOUT < st.now
        · rw [if_pos h2]
          exact h
        · rw [if_neg h2]
          by_cases h3 : signalAborted w.abortAt (wakeTime w.abortAt st.now st.delay) = true
          · rw [if_pos h3]
            exact h
          · rw [if_neg h3]
            have hnew : ∀ ev ∈ st.checks ++
                [(⟨wakeTime w.abortAt st.now st.delay, st.delay⟩ : CheckEv)],
                signalAborted w.abortAt ev.time = false := by
              intro ev hev
              rcases List.mem_append.mp hev with h4 | h5
              · exact h ev h4
              · have h6 : ev = ⟨wakeTime w.abortAt st.now st.delay, st.delay⟩ := by
                  simpa using h5
                rw [h6]
                exact Bool.not_eq_true _ |>.mp h3
            by_cases h4 : (w.statusOf st.checks.length).status = "completed"
                ∧ truthyStr (w.statusOf st.checks.length).videoUrl = true
            · rw [if_pos h4]
              exact hnew
            · rw [if_neg h4]
              by_cases h5 : (w.statusOf st.checks.length).status = "failed"
              · rw [if_pos h5]
                exact hnew
              · rw [if_neg h5]
                exact ih _ hnew

/-- C4: a cancellation signal raised at or before entry into the loop
makes `pollUntilDone` end in `Cancelled` with an empty check trace —
`checkStatus` is never invoked — and in every run whatsoever, every
`checkStatus` invocation happens at a moment at which the signal is not
aborted (cancellation is re-checked after the interruptible sleep and
before the network call), so no check is ever issued after the signal
has been observed aborted. -/
theorem C4_cancellation (w : PollWorld) :
    (∀ a : ℚ, w.abortAt = some a → a ≤ 0 → ∀ fuel : ℕ, 1 ≤ fuel →
      pollUntilDone w fuel = (PollResult.cancelled, []))
    ∧ (∀ fuel : ℕ, ∀ ev ∈ (pollUntilDone w fuel).2,
        signalAborted w.abortAt ev.time = false) := by
  constructor
  · intro a ha h0 fuel hfuel
    obtain ⟨k, rfl⟩ : ∃ k, fuel = k + 1 := ⟨fuel - 1, by omega⟩
    rw [pollUntilDone, pollLoop]
    have hsig : signalAborted w.abortAt ((⟨3000, 0, []⟩ : PollState).now) = true := by
      rw [ha]
      simp [signalAborted, h0]
    rw [if_pos hsig]
  · intro fuel
    exact pollLoop_checks_not_aborted w fuel ⟨3000, 0, []⟩ (by simp)

/-- C4 witness: with the signal aborted at time 0 the run is cancelled
with no checks; with the signal aborted at time 10000 the two checks
the run does issue (at times 3000 and 6900) happen before the abort. -/
theorem C4_cancellation_witness :
    pollUntilDone wAbortBefore 5 = (PollResult.cancelled, [])
    ∧ signalAborted wAbortLater.abortAt ((⟨6900, 3900⟩ : CheckEv).time) = false :=
  ⟨(C4_cancellation wAbortBefore).1 0 rfl (by norm_num) 5 (by norm_num),
   (C4_cancellation wAbortLater).2 5 ⟨6900, 3900⟩ (by decide)⟩

theorem pollLoop_success_spec (w : PollWorld) :
    ∀ fuel st u tr, pollLoop w fuel st = (PollResult.success u, tr) →
      ∃ k, tr.length = k + 1 ∧ st.checks.length ≤ k
        ∧ (w.statusOf k).status = "completed"
        ∧ truthyStr (w.statusOf k).videoUrl = true
        ∧ u = (w.statusOf k).videoUrl.getD "" := by
  intro fuel
  induction fuel with
  | zero =>
      intro st u tr h
      rw [pollLoop] at h
      simp at h
  | succ fuel ih =>
      intro st u tr h
      rw [pollLoop] at h
      by_cases h1 : signalAborted w.abortAt st.now = true
      · rw [if_pos h1] at h
        simp at h
      · rw [if_neg h1] at h
        by_cases h2 : MAX_POLL_TIMEOUT < st.now
        · rw [if_pos h2] at h
          simp at h
        · rw [if_neg h2] at h
          by_cases h3 : signalAborted w.abortAt (wakeTime w.abortAt st.now st.delay) = true
          · rw [if_pos h3] at h
            simp at h
          · rw [if_neg h3] at h
            by_cases h4 : (w.statusOf st.checks.length).status = "completed"
                ∧ truthyStr (w.statusOf st.checks.length).videoUrl = true
            · rw [if_pos h4] at h
              injection h with hres htr
              injection hres with hval
              refine ⟨st.checks.length, ?_, le_refl _, h4.1, h4.2, hval.symm⟩
              rw [← htr]
              simp
            · rw [if_neg h4] at h
              by_cases h5 : (w.statusOf st.checks.length).status = "failed"
              · rw [if_pos h5] at h
                simp at h
              · rw [if_neg h5] at h
                obtain ⟨k, hk1, hk2, hk3, hk4, hk5⟩ := ih _ u tr h
                simp at hk2
                exact ⟨k, hk1, by omega, hk3, hk4, hk5⟩

theorem pollLoop_no_success_spec (w : PollWorld) :
    ∀ fuel st res tr, pollLoop w fuel st = (res, tr) →
      (∀ u, res ≠ PollResult.success u) →
      ∀ i, st.checks.length ≤ i → i < tr.length →
        ¬((w.statusOf i).status = "completed"
          ∧ truthyStr (w.statusOf i).videoUrl = true) := by
  intro fuel
  induction fuel with
  | zero =>
      intro st res tr h _ i hi1 hi2
      rw [pollLoop] at h
      cases h
      omega
  | succ fuel ih =>
      intro st res tr h hne i hi1 hi2
      rw [pollLoop] at h
      by_cases h1 : signalAborted w.abortAt st.now = true
      · rw [if_pos h1] at h
        cases h
        omega
      · rw [if_neg h1] at h
        by_cases h2 : MAX_POLL_TIMEOUT < st.now
        · rw [if_pos h2] at h
          cases h
          omega
        · rw [if_neg h2] at h
          by_cases h3 : signalAborted w.abortAt (wakeTime w.abortAt st.now st.delay) = true
          · rw [if_pos h3] at h
            cases h
            omega
          · rw [if_neg h3] at h
            by_cases h4 : (w.statusOf st.checks.length).status = "completed"
                ∧ truthyStr (w.statusOf st.checks.length).videoUrl = true
            · rw [if_pos h4] at h
              cases h
              exact absurd rfl (hne _)
            · rw [if_neg h4] at h
              by_cases h5 : (w.statusOf st.checks.length).status = "failed"
              · rw [if_pos h5] at h
                cases h
                have hi3 : i = st.checks.length := by
                  simp at hi2
                  omega
                rw [hi3]
                exact h4
              · rw [if_neg h5] at h
                by_cases hi4 : i = st.checks.length
                · rw [hi4]
                  exact h4
                · refine ih _ res tr h hne i ?_ hi2
                  simp
                  omega

theorem pollLoop_failed_spec (w : PollWorld) :
    ∀ fuel st tr, pollLoop w fuel st = (PollResult.failedJob, tr) →
      ∃ k, tr.length = k + 1 ∧ st.checks.length ≤ k
        ∧ (w.statusOf k).status = "failed" := by
  intro fuel
  induction fuel with
  | zero =>
      intro st tr h
      rw [pollLoop] at h
      simp at h
  | succ fuel ih =>
      intro st tr h
      rw [pollLoop] at h
      by_cases h1 : signalAborted w.abortAt st.now = true
      · rw [if_pos h1] at h
        simp at h
      · rw [if_neg h1] at h
        by_cases h2 : MAX_POLL_TIMEOUT < st.now
        · rw [if_pos h2] at h
          simp at h
        · rw [if_neg h2] at h
          by_cases h3 : signalAborted w.abortAt (wakeTime w.abortAt st.now st.delay) = true
          · rw [if_pos h3] at h
            simp at h
          · rw [if_neg h3] at h
            by_cases h4 : (w.statusOf st.checks.length).status = "completed"
                ∧ truthyStr (w.statusOf st.checks.length).videoUrl = true
            · rw [if_pos h4] at h
              simp at h
            · rw [if_neg h4] at h
              by_cases h5 : (w.statusOf st.checks.length).status = "failed"
              · rw [if_pos h5] at h
                injection h with _ htr
                refine ⟨st.checks.length, ?_, le_refl _, h5⟩
                rw [← htr]
                simp
              · rw [if_neg h5] at h
                obtain ⟨k, hk1, hk2, hk3⟩ := ih _ tr h
                simp at hk2
                exact ⟨k, hk1, by omega, hk3⟩

theorem pollLoop_no_failed_spec (w : PollWorld) :
    ∀ fuel st res tr, pollLoop w fuel st = (res, tr) →
      res ≠ PollResult.failedJob →
      ∀ i, st.checks.length ≤ i → i < tr.length →
        (w.statusOf i).status ≠ "failed" := by
  intro fuel
  induction fuel with
  | zero =>
      intro st res tr h _ i hi1 hi2
      rw [pollLoop] at h
      cases h
      omega
  | succ fuel ih =>
      intro st res tr h hne i hi1 hi2
      rw [pollLoop] at h
      by_cases h1 : signalAborted w.abortAt st.now = true
      · rw [if_pos h1] at h
        cases h
        omega
      · rw [if_neg h1] at h
        by_cases h2 : MAX_POLL_TIMEOUT < st.now
        · rw [if_pos h2] at h
          cases h
          omega
        · rw [if_neg h2] at h
          by_cases h3 : signalAborted w.abortAt (wakeTime w.abortAt st.now st.delay) = true
          · rw [if_pos h3] at h
            cases h
            omega
          · rw [if_neg h3] at h
            by_cases h4 : (w.statusOf st.checks.length).status = "completed"
                ∧ truthyStr (w.statusOf st.checks.length).videoUrl = true
            · rw [if_pos h4] at h
              cases h
              have hi3 : i = st.checks.length := by
                simp at hi2
                omega
              rw [hi3, h4.1]
              decide
            · rw [if_neg h4] at h
              by_cases h5 : (w.statusOf st.checks.length).status = "failed"
              · rw [if_pos h5] at h
                cases h
                exact absurd rfl hne
              · rw [if_neg h5] at h
                by_cases hi4 : i = st.checks.length
                · rw [hi4]
                  exact h5
                · refine ih _ res tr h hne i ?_ hi2
                  simp
                  omega

/-- C7: a run returns success exactly when a received `checkStatus`
response has status `completed` with a truthy video reference — in that
case it is the last received response and the returned URL is exactly
its video URL; runs that do not succeed never received such a response;
the `failedJob` outcome arises exactly from a received `failed`
response (again the last one); and a `completed` response without a
video reference does not terminate the loop: the iteration falls
through to the backoff update and continues polling. -/
theorem C7_success_failure_characterisation (w : PollWorld) (fuel : ℕ) :
    (∀ u, (pollUntilDone w fuel).1 = PollResult.success u →
      ∃ k, (pollUntilDone w fuel).2.length = k + 1
        ∧ (w.statusOf k).status = "completed"
        ∧ truthyStr (w.statusOf k).videoUrl = true
        ∧ u = (w.statusOf k).videoUrl.getD "")
    ∧ ((∀ u, (pollUntilDone w fuel).1 ≠ PollResult.success u) →
      ∀ i < (pollUntilDone w fuel).2.length,
        ¬((w.statusOf i).status = "completed"
          ∧ truthyStr (w.statusOf i).videoUrl = true))
    ∧ ((pollUntilDone w fuel).1 = PollResult.failedJob →
      ∃ k, (pollUntilDone w fuel).2.length = k + 1
        ∧ (w.statusOf k).status = "failed")
    ∧ ((pollUntilDone w fuel).1 ≠ PollResult.failedJob →
      ∀ i < (pollUntilDone w fuel).2.length, (w.statusOf i).status ≠ "failed")
    ∧ (∀ fuel2 : ℕ, ∀ st : PollState,
        signalAborted w.abortAt st.now = false →
        ¬(MAX_POLL_TIMEOUT < st.now) →
        signalAborted w.abortAt (wakeTime w.abortAt st.now st.delay) = false →
        (w.statusOf st.checks.length).status = "completed" →
        truthyStr (w.statusOf st.checks.length).videoUrl = false →
        pollLoop w (fuel2 + 1) st =
          pollLoop w fuel2
            ⟨qmin (qmul st.delay backoffFactor) maxDelay,
              wakeTime w.abortAt st.now st.delay,
              st.checks ++ [⟨wakeTime w.abortAt st.now st.delay, st.delay⟩]⟩) := by
  have hpair : pollLoop w fuel ⟨3000, 0, []⟩ =
      ((pollUntilDone w fuel).1, (pollUntilDone w fuel).2) := Prod.mk.eta.symm
  refine ⟨?_, ?_, ?_, ?_, ?_⟩
  · intro u hu
    rw [hu] at hpair
    obtain ⟨k, hk1, _, hk3, hk4, hk5⟩ := pollLoop_success_spec w fuel _ u _ hpair
    exact ⟨k, hk1, hk3, hk4, hk5⟩
  · intro hne i hi
    exact pollLoop_no_success_spec w fuel _ _ _ hpair hne i (by simp) hi
  · intro hu
    rw [hu] at hpair
    obtain ⟨k, hk1, _, hk3⟩ := pollLoop_failed_spec w fuel _ _ hpair
    exact ⟨k, hk1, hk3⟩
  · intro hne i hi
    exact pollLoop_no_failed_spec w fuel _ _ _ hpair hne i (by simp) hi
  · intro fuel2 st hs1 hs2 hs3 hc hv
    rw [pollLoop]
    rw [if_neg (by rw [hs1]; decide), if_neg hs2, if_neg (by rw [hs3]; decide)]
    rw [if_neg (by intro hcc; rw [hv] at hcc; exact absurd hcc.2 (by decide))]
    rw [if_neg (by rw [hc]; decide)]

/-- C7 witness: a transport answering `processing` then `completed`
with a URL makes the run succeed with exactly that URL after two
checks. -/
theorem C7_success_failure_characterisation_witness :
    ∃ k, (pollUntilDone wSucc 5).2.length = k + 1
      ∧ (wSucc.statusOf k).status = "completed"
      ∧ truthyStr (wSucc.statusOf k).videoUrl = true
      ∧ "http://v" = (wSucc.statusOf k).videoUrl.getD "" :=
  (C7_success_failure_characterisation wSucc 5).1 "http://v" (by decide)

theorem nextDelay_eq (d : ℚ) :
    qmin (qmul d backoffFactor) maxDelay = min (d * (13 / 10)) 10000 := by
  rw [qmin_eq, qmul_eq, backoffFactor_eq]
  rfl

theorem nextDelay_lb (d : ℚ) (h1 : 3000 ≤ d) :
    3000 ≤ qmin (qmul d backoffFactor) maxDelay := by
  rw [nextDelay_eq]
  apply le_min
  · linarith
  · norm_num

theorem nextDelay_ub (d : ℚ) : qmin (qmul d backoffFactor) maxDelay ≤ 10000 := by
  rw [nextDelay_eq]
  exact min_le_right _ _

theorem nextDelay_ge (d : ℚ) (h1 : 0 ≤ d) (h2 : d ≤ 10000) :
    d ≤ qmin (qmul d backoffFactor) maxDelay := by
  rw [nextDelay_eq]
  apply le_min
  · linarith
  · exact h2

theorem DelayInv_nil : DelayInv [] 3000 := by
  rw [DelayInv]
  refine ⟨by norm_num, by norm_num, fun _ => rfl, by simp, by simp,
    List.Pairwise.nil, by simp, by simp⟩

theorem DelayInv_append (l : List CheckEv) (d t : ℚ) (h : DelayInv l d) :
    DelayInv (l ++ [⟨t, d⟩]) (qmin (qmul d backoffFactor) maxDelay) := by
  obtain ⟨h1, h2, h3, h4, h5, h6, h7, h8⟩ := h
  have hge : d ≤ qmin (qmul d backoffFactor) maxDelay := nextDelay_ge d (by linarith) h2
  refine ⟨nextDelay_lb d h1, nextDelay_ub d, ?_, ?_, ?_, ?_, ?_, ?_⟩
  · intro hnil
    simp at hnil
  · intro ev hev
    cases l with
    | nil =>
        simp at hev
        rw [← hev]
        exact h3 rfl
    | cons x xs =>
        rw [List.cons_append] at hev
        simp at hev
        rw [← hev]
        exact h4 x rfl
  · intro ev hev
    rcases List.mem_append.mp hev with hin | hsing
    · obtain ⟨a1, a2, a3⟩ := h5 ev hin
      exact ⟨a1, a2, le_trans a3 hge⟩
    · simp at hsing
      rw [hsing]
      exact ⟨h1, h2, hge⟩
  · rw [List.pairwise_append]
    refine ⟨h6, by simp, ?_⟩
    intro a ha b hb
    simp at hb
    rw [hb]
    exact (h5 a ha).2.2
  · intro i x y hx hy
    have hylen : i + 1 < l.length + 1 := by
      by_contra hcon
      rw [List.getElem?_eq_none (by simp; omega)] at hy
      cases hy
    by_cases hcase : i + 1 < l.length
    · have hx' : l[i]? = some x := by
        rw [← hx, List.getElem?_append_left (by omega)]
      have hy' : l[i + 1]? = some y := by
        rw [← hy, List.getElem?_append_left hcase]
      exact h7 i x y hx' hy'
    · have hi1 : i + 1 = l.length := by omega
      have hy' : y = ⟨t, d⟩ := by
        rw [List.getElem?_append_right (by omega), hi1] at hy
        simp at hy
        exact hy.symm
      have hx' : l.getLast? = some x := by
        rw [List.getLast?_eq_getElem?, ← hx, List.getElem?_append_left (by omega)]
        congr 1
        omega
      rw [hy']
      exact h8 x hx'
  · intro ev hev
    rw [List.getLast?_concat] at hev
    injection hev with hev
    rw [← hev]

theorem DelayInv.delaysOk (l : List CheckEv) (d : ℚ) (h : DelayInv l d) : DelaysOk l := by
  obtain ⟨_, _, _, h4, h5, h6, h7, _⟩ := h
  exact ⟨h4, fun ev hev => ⟨(h5 ev hev).1, (h5 ev hev).2.1⟩, h6, h7⟩

theorem pollLoop_delays (w : PollWorld) :
    ∀ fuel st, DelayInv st.checks st.delay → DelaysOk (pollLoop w fuel st).2 := by
  intro fuel
  induction fuel with
  | zero =>
      intro st h
      rw [pollLoop]
      exact DelayInv.delaysOk _ _ h
  | succ fuel ih =>
      intro st h
      rw [pollLoop]
      by_cases h1 : signalAborted w.abortAt st.now = true
      · rw [if_pos h1]
        exact DelayInv.delaysOk _ _ h
      · rw [if_neg h1]
        by_cases h2 : MAX_POLL_TIMEOUT < st.now
        · rw [if_pos h2]
          exact DelayInv.delaysOk _ _ h
        · rw [if_neg h2]
          by_cases h3 : signalAborted w.abortAt (wakeTime w.abortAt st.now st.delay) = true
          · rw [if_pos h3]
            exact DelayInv.delaysOk _ _ h
          · rw [if_neg h3]
            have happ := DelayInv_append st.checks st.delay
              (wakeTime w.abortAt st.now st.delay) h
            by_cases h4 : (w.statusOf st.checks.length).status = "completed"
                ∧ truthyStr (w.statusOf st.checks.length).videoUrl = true
            · rw [if_pos h4]
              exact DelayInv.delaysOk _ _ happ
            · rw [if_neg h4]
              by_cases h5 : (w.statusOf st.checks.length).status = "failed"
              · rw [if_pos h5]
                exact DelayInv.delaysOk _ _ happ
              · rw [if_neg h5]
                exact ih _ happ

/-- C8: in every run the first sleep delay is 3000 ms, every recorded
sleep delay lies in `[3000 ms, 10000 ms]`, the sequence of sleep delays
across successive status checks is non-decreasing, and each next delay
is exactly the previous one multiplied by `1.3` and capped at
`maxDelay` (10000 ms). -/
theorem C8_backoff_schedule (w : PollWorld) (fuel : ℕ) :
    (∀ ev, (pollUntilDone w fuel).2.head? = some ev → ev.delay = 3000)
    ∧ (∀ ev ∈ (pollUntilDone w fuel).2, 3000 ≤ ev.delay ∧ ev.delay ≤ 10000)
    ∧ List.Pairwise (fun a b => a.delay ≤ b.delay) (pollUntilDone w fuel).2
    ∧ (∀ i : ℕ, ∀ x y, ((pollUntilDone w fuel).2)[i]? = some x →
        ((pollUntilDone w fuel).2)[i + 1]? = some y →
        y.delay = min (x.delay * (13 / 10)) maxDelay) := by
  obtain ⟨hh, hb, hp, hc⟩ :=
    pollLoop_delays w fuel ⟨3000, 0, []⟩ DelayInv_nil
  refine ⟨hh, hb, hp, ?_⟩
  intro i x y hx hy
  rw [hc i x y hx hy, nextDelay_eq]
  rfl

/-- C8 witness: in the always-`processing` run the first two sleeps are
3000 and 3900 ms, and 3900 is the capped `1.3` multiple of 3000. -/
theorem C8_backoff_schedule_witness :
    (pollUntilDone wProc 3).2[0]? = some ⟨3000, 3000⟩
    ∧ (pollUntilDone wProc 3).2[1]? = some ⟨6900, 3900⟩
    ∧ (⟨6900, 3900⟩ : CheckEv).delay =
        min ((⟨3000, 3000⟩ : CheckEv).delay * (13 / 10)) maxDelay :=
  ⟨by decide, by decide,
   (C8_backoff_schedule wProc 3).2.2.2 0 ⟨3000, 3000⟩ ⟨6900, 3900⟩ (by decide) (by decide)⟩
